import Mathlib

/-!
Shallow embedding of the interaction controller in `src/app/(tabs)/index.tsx`.

The controller owns four React state fields (`isLoading`, `isListening`,
`aiReply`, `recognizedText`) and mediates between the Speech Capability
(`Voice.start` / `Voice.stop` plus the `onSpeechResults` / `onSpeechEnd` /
`onSpeechError` callbacks registered in the `useEffect`) and the Reply
Capability (the `fetch` to `SERVER_URL` in `sendToServer`).

Each controller operation is embedded as the list of primitive steps it
performs, in source order: a step is either a state setter (`setIsLoading`,
`setIsListening`, `setRecognizedText`, `setAiReply`), an external capability
call (`Voice.start`, `Voice.stop`, the HTTP send), or a console log.  Folding
the steps over a state gives the operation's state effect; filtering the call
steps gives the capability calls it makes.  Fallible externals are given an
explicit outcome parameter (`start` succeeding or throwing, `stop` succeeding
or rejecting, the fetch resolving with a payload / rejecting / failing to
parse / throwing synchronously); every outcome is handled by the embedded
`try`/`catch`/`finally` structure exactly as in the source.
-/

/-- The controller state: the four `useState` fields, in declaration order. -/
structure AppState where
  isLoading : Bool
  isListening : Bool
  aiReply : String
  recognizedText : String
  deriving DecidableEq, Repr

/-- An external capability call made by the controller: `Voice.start(locale)`,
`Voice.stop()`, or the Reply Capability request (`fetch` with the given
`message` field). -/
inductive Call where
  | voiceStart (locale : String)
  | voiceStop
  | send (message : String)
  deriving DecidableEq, Repr

/-- One primitive step of a controller operation: a state setter, an external
capability call, or a console log. -/
inductive Step where
  | setLoading (b : Bool)
  | setListening (b : Bool)
  | setRecognized (t : String)
  | setReply (t : String)
  | call (c : Call)
  | log (m : String)
  deriving DecidableEq, Repr

/-- Effect of one step on the controller state (calls and logs leave it
unchanged). -/
def applyStep (s : AppState) : Step → AppState
  | .setLoading b => { s with isLoading := b }
  | .setListening b => { s with isListening := b }
  | .setRecognized t => { s with recognizedText := t }
  | .setReply t => { s with aiReply := t }
  | .call _ => s
  | .log _ => s

/-- State after running a list of steps from `s`. -/
def runSteps (s : AppState) (steps : List Step) : AppState :=
  steps.foldl applyStep s

/-- All intermediate states of a run: `stateTrace s steps` has one more entry
than `steps`, beginning with `s` and ending with `runSteps s steps`. -/
def stateTrace (s : AppState) : List Step → List AppState
  | [] => [s]
  | st :: rest => s :: stateTrace (applyStep s st) rest

/-- The external capability calls among a list of steps, in order. -/
def callsOf (steps : List Step) : List Call :=
  steps.filterMap fun st =>
    match st with
    | .call c => some c
    | _ => none

/-- The messages of the Reply Capability calls among a list of calls. -/
def sendMessages (cs : List Call) : List String :=
  cs.filterMap fun c =>
    match c with
    | .send m => some m
    | _ => none

/-- Does the step write `isLoading`? -/
def setsLoading : Step → Bool
  | .setLoading _ => true
  | _ => false

/-- Does the step write `recognizedText`? -/
def setsRecognized : Step → Bool
  | .setRecognized _ => true
  | _ => false

/-- Does the step reset `aiReply` to the empty string? -/
def setsReplyEmpty : Step → Bool
  | .setReply "" => true
  | _ => false

/-- A `SpeechResultsEvent`: `e.value` is an optional candidate list (`string[]`
or absent). -/
structure SpeechResultsEvent where
  value : Option (List String)
  deriving DecidableEq, Repr

/-- A `SpeechErrorEvent`: the controller only logs `e.error`. -/
structure SpeechErrorEvent where
  error : String
  deriving DecidableEq, Repr

/-- Steps of the `onSpeechResults` handler: if `e.value` is present and
non-empty, replace `recognizedText` with its first candidate; otherwise do
nothing. -/
def onSpeechResultsSteps (e : SpeechResultsEvent) : List Step :=
  match e.value with
  | some (v :: _) => [Step.setRecognized v]
  | _ => []

/-- State effect of the `onSpeechResults` handler. -/
def onSpeechResults (e : SpeechResultsEvent) (s : AppState) : AppState :=
  runSteps s (onSpeechResultsSteps e)

/-- Steps of the `onSpeechEnd` handler: force `isListening` to `false`, then
log. -/
def onSpeechEndSteps : List Step :=
  [Step.setListening false, Step.log "Speech listening has ended."]

/-- State effect of the `onSpeechEnd` handler. -/
def onSpeechEnd (s : AppState) : AppState :=
  runSteps s onSpeechEndSteps

/-- Steps of the `onSpeechError` handler: log the error, then force
`isListening` to `false`. -/
def onSpeechErrorSteps (e : SpeechErrorEvent) : List Step :=
  [Step.log ("Speech Error: " ++ e.error), Step.setListening false]

/-- State effect of the `onSpeechError` handler. -/
def onSpeechError (e : SpeechErrorEvent) (s : AppState) : AppState :=
  runSteps s (onSpeechErrorSteps e)

/-- A JSON value, for the `reply` field of the Reply Capability payload. -/
inductive JsonValue where
  | jnull
  | jbool (b : Bool)
  | jnum (n : Int)
  | jstr (t : String)
  deriving DecidableEq, Repr

/-- JavaScript truthiness of a JSON value, as tested by `data.reply || ...`. -/
def truthy : JsonValue → Bool
  | .jnull => false
  | .jbool b => b
  | .jnum n => n != 0
  | .jstr t => t != ""

/-- JavaScript string coercion of a JSON value, as rendered when it is stored
in `aiReply`. -/
def jsToString : JsonValue → String
  | .jnull => "null"
  | .jbool true => "true"
  | .jbool false => "false"
  | .jnum n => toString n
  | .jstr t => t

/-- The fixed fallback string used when the payload lacks a truthy `reply`. -/
def fallbackReply : String := "Sorry, I couldn\x27t get a response."

/-- The fixed connectivity-error message set when the fetch or the JSON parse
fails. -/
def connectError : String :=
  "I\x27m having trouble connecting to my brain. Please check the server."

/-- The value stored in `aiReply` on a resolved response:
`data.reply || "Sorry, ..."`, i.e. the (coerced) `reply` field when present
and truthy, the fallback string otherwise. -/
def replyOf (payloadReply : Option JsonValue) : String :=
  match payloadReply with
  | some v => if truthy v then jsToString v else fallbackReply
  | none => fallbackReply

/-- How the Reply Capability request settles:
`ok status payloadReply` — the fetch resolves with the given HTTP status and
a JSON body whose `reply` field is `payloadReply` (`none` when absent);
`fetchReject` — the fetch rejects (network error);
`jsonReject status` — the fetch resolves but `response.json()` rejects;
`throwSync` — the fetch call throws synchronously. -/
inductive SendOutcome where
  | ok (status : Nat) (payloadReply : Option JsonValue)
  | fetchReject
  | jsonReject (status : Nat)
  | throwSync
  deriving DecidableEq, Repr

/-- Steps of `sendToServer(message)`: log, `setIsLoading(true)`,
`setAiReply("")`, the fetch call, then either the success path
(`setAiReply(data.reply || fallback)`) or the catch path (log,
`setAiReply(connectError)`), and in all cases the `finally` block
(`setIsLoading(false)`).  The HTTP status is never inspected. -/
def sendToServerSteps (message : String) (o : SendOutcome) : List Step :=
  [Step.log ("Sending this to server: " ++ message),
   Step.setLoading true,
   Step.setReply "",
   Step.call (Call.send message)] ++
  (match o with
   | .ok _ payloadReply =>
       [Step.setReply (replyOf payloadReply)]
   | .fetchReject | .jsonReject _ | .throwSync =>
       [Step.log "Network Error:", Step.setReply connectError]) ++
  [Step.setLoading false]

/-- State effect and capability calls of `sendToServer`. -/
def sendToServer (message : String) (o : SendOutcome) (s : AppState) :
    AppState × List Call :=
  (runSteps s (sendToServerSteps message o), callsOf (sendToServerSteps message o))

/-- Steps of `startListening`: clear `recognizedText` and `aiReply`, set
`isListening` to `true`, call `Voice.start("en-US")`; if `start` throws or
rejects, the catch logs and sets `isListening` back to `false`. -/
def startListeningSteps (startOk : Bool) : List Step :=
  [Step.setRecognized "",
   Step.setReply "",
   Step.setListening true,
   Step.call (Call.voiceStart "en-US")] ++
  (if startOk then []
   else [Step.log "Failed to start listening:", Step.setListening false])

/-- Steps of `stopListening`: call `Voice.stop()`; if it rejects, the catch
only logs.  No branch writes `isListening`: the source comments that the
`onSpeechEnd` handler will set it to `false`. -/
def stopListeningSteps (stopOk : Bool) : List Step :=
  [Step.call Call.voiceStop] ++
  (if stopOk then [] else [Step.log "Failed to stop listening:"])

/-- One activation's environment: whether `Voice.start` succeeds, whether
`Voice.stop` succeeds, and how the Reply Capability request settles. -/
structure PressEnv where
  startOk : Bool
  stopOk : Bool
  sendOutcome : SendOutcome
  deriving DecidableEq, Repr

/-- Steps of `handlePress`: return at once while `isLoading`; when listening,
`stopListening` then, if `recognizedText` (the value captured at press time)
is non-empty, `sendToServer(recognizedText)`; otherwise `startListening`. -/
def handlePressSteps (env : PressEnv) (s : AppState) : List Step :=
  if s.isLoading then []
  else if s.isListening then
    stopListeningSteps env.stopOk ++
    (if s.recognizedText ≠ "" then
       sendToServerSteps s.recognizedText env.sendOutcome
     else [])
  else
    startListeningSteps env.startOk

/-- State effect and capability calls of `handlePress`. -/
def handlePress (env : PressEnv) (s : AppState) : AppState × List Call :=
  (runSteps s (handlePressSteps env s), callsOf (handlePressSteps env s))

/-- An activation together with the Speech Capability event it triggers: per
the capability contract (and the source's comment in `stopListening`), a
`stop()` that settles successfully is followed by the `onSpeechEnd` event,
delivered here as soon as the `await` of `stop()` resolves; a rejected
`stop()` comes with no event.  Otherwise identical to `handlePressSteps`. -/
def activationSteps (env : PressEnv) (s : AppState) : List Step :=
  if s.isLoading then []
  else if s.isListening then
    stopListeningSteps env.stopOk ++
    (if env.stopOk then onSpeechEndSteps else []) ++
    (if s.recognizedText ≠ "" then
       sendToServerSteps s.recognizedText env.sendOutcome
     else [])
  else
    startListeningSteps env.startOk

/-- State effect and capability calls of one activation (with its stop event). -/
def activationRun (env : PressEnv) (s : AppState) : AppState × List Call :=
  (runSteps s (activationSteps env s), callsOf (activationSteps env s))

/-- A sequence of activations, threading the state and concatenating the
capability calls. -/
def activationSeq (s : AppState) : List PressEnv → AppState × List Call
  | [] => (s, [])
  | env :: rest =>
      let r := activationRun env s
      let r2 := activationSeq r.1 rest
      (r2.1, r.2 ++ r2.2)

/-! ### Basic lemmas about runs, calls, and frame conditions -/

theorem runSteps_append (s : AppState) (l1 l2 : List Step) :
    runSteps s (l1 ++ l2) = runSteps (runSteps s l1) l2 := by
  simp [runSteps, List.foldl_append]

theorem callsOf_append (l1 l2 : List Step) :
    callsOf (l1 ++ l2) = callsOf l1 ++ callsOf l2 := by
  simp [callsOf, List.filterMap_append]

theorem sendMessages_append (c1 c2 : List Call) :
    sendMessages (c1 ++ c2) = sendMessages c1 ++ sendMessages c2 := by
  simp [sendMessages, List.filterMap_append]

theorem runSteps_isListening_eq (s : AppState) (steps : List Step)
    (h : ∀ b, Step.setListening b ∉ steps) :
    (runSteps s steps).isListening = s.isListening := by
  induction steps generalizing s with
  | nil => rfl
  | cons st rest ih =>
      have h1 : ∀ b, Step.setListening b ∉ rest :=
        fun b hb => h b (List.mem_cons_of_mem _ hb)
      have h2 : (applyStep s st).isListening = s.isListening := by
        cases st with
        | setListening b => exact absurd (List.mem_cons_self _ _) (h b)
        | setLoading b => rfl
        | setRecognized t => rfl
        | setReply t => rfl
        | call c => rfl
        | log m => rfl
      calc (runSteps s (st :: rest)).isListening
          = (runSteps (applyStep s st) rest).isListening := rfl
        _ = (applyStep s st).isListening := ih _ h1
        _ = s.isListening := h2

theorem runSteps_isLoading_eq (s : AppState) (steps : List Step)
    (h : ∀ b, Step.setLoading b ∉ steps) :
    (runSteps s steps).isLoading = s.isLoading := by
  induction steps generalizing s with
  | nil => rfl
  | cons st rest ih =>
      have h1 : ∀ b, Step.setLoading b ∉ rest :=
        fun b hb => h b (List.mem_cons_of_mem _ hb)
      have h2 : (applyStep s st).isLoading = s.isLoading := by
        cases st with
        | setLoading b => exact absurd (List.mem_cons_self _ _) (h b)
        | setListening b => rfl
        | setRecognized t => rfl
        | setReply t => rfl
        | call c => rfl
        | log m => rfl
      calc (runSteps s (st :: rest)).isLoading
          = (runSteps (applyStep s st) rest).isLoading := rfl
        _ = (applyStep s st).isLoading := ih _ h1
        _ = s.isLoading := h2

theorem runSteps_aiReply_eq (s : AppState) (steps : List Step)
    (h : ∀ t, Step.setReply t ∉ steps) :
    (runSteps s steps).aiReply = s.aiReply := by
  induction steps generalizing s with
  | nil => rfl
  | cons st rest ih =>
      have h1 : ∀ t, Step.setReply t ∉ rest :=
        fun t hb => h t (List.mem_cons_of_mem _ hb)
      have h2 : (applyStep s st).aiReply = s.aiReply := by
        cases st with
        | setReply t => exact absurd (List.mem_cons_self _ _) (h t)
        | setListening b => rfl
        | setRecognized t => rfl
        | setLoading b => rfl
        | call c => rfl
        | log m => rfl
      calc (runSteps s (st :: rest)).aiReply
          = (runSteps (applyStep s st) rest).aiReply := rfl
        _ = (applyStep s st).aiReply := ih _ h1
        _ = s.aiReply := h2

theorem runSteps_recognized_eq (s : AppState) (steps : List Step)
    (h : ∀ t, Step.setRecognized t ∉ steps) :
    (runSteps s steps).recognizedText = s.recognizedText := by
  induction steps generalizing s with
  | nil => rfl
  | cons st rest ih =>
      have h1 : ∀ t, Step.setRecognized t ∉ rest :=
        fun t hb => h t (List.mem_cons_of_mem _ hb)
      have h2 : (applyStep s st).recognizedText = s.recognizedText := by
        cases st with
        | setRecognized t => exact absurd (List.mem_cons_self _ _) (h t)
        | setListening b => rfl
        | setReply t => rfl
        | setLoading b => rfl
        | call c => rfl
        | log m => rfl
      calc (runSteps s (st :: rest)).recognizedText
          = (runSteps (applyStep s st) rest).recognizedText := rfl
        _ = (applyStep s st).recognizedText := ih _ h1
        _ = s.recognizedText := h2

theorem stopListeningSteps_no_setListening (stopOk : Bool) :
    ∀ b, Step.setListening b ∉ stopListeningSteps stopOk := by
  intro b
  cases stopOk <;> simp [stopListeningSteps]

theorem stopListeningSteps_no_setLoading (stopOk : Bool) :
    ∀ b, Step.setLoading b ∉ stopListeningSteps stopOk := by
  intro b
  cases stopOk <;> simp [stopListeningSteps]

theorem stopListeningSteps_no_setReply (stopOk : Bool) :
    ∀ t, Step.setReply t ∉ stopListeningSteps stopOk := by
  intro t
  cases stopOk <;> simp [stopListeningSteps]

theorem stopListeningSteps_no_setRecognized (stopOk : Bool) :
    ∀ t, Step.setRecognized t ∉ stopListeningSteps stopOk := by
  intro t
  cases stopOk <;> simp [stopListeningSteps]

theorem stopListeningSteps_calls (stopOk : Bool) :
    callsOf (stopListeningSteps stopOk) = [Call.voiceStop] := by
  cases stopOk <;> rfl

theorem onSpeechEndSteps_calls : callsOf onSpeechEndSteps = [] := rfl

theorem onSpeechEndSteps_no_setLoading :
    ∀ b, Step.setLoading b ∉ onSpeechEndSteps := by
  intro b
  simp [onSpeechEndSteps]

theorem onSpeechEndSteps_no_setReply :
    ∀ t, Step.setReply t ∉ onSpeechEndSteps := by
  intro t
  simp [onSpeechEndSteps]

theorem onSpeechEndSteps_no_setRecognized :
    ∀ t, Step.setRecognized t ∉ onSpeechEndSteps := by
  intro t
  simp [onSpeechEndSteps]

theorem sendToServerSteps_no_setListening (m : String) (o : SendOutcome) :
    ∀ b, Step.setListening b ∉ sendToServerSteps m o := by
  intro b
  cases o <;> simp [sendToServerSteps]

theorem sendToServerSteps_no_setRecognized (m : String) (o : SendOutcome) :
    ∀ t, Step.setRecognized t ∉ sendToServerSteps m o := by
  intro t
  cases o <;> simp [sendToServerSteps]

theorem sendToServerSteps_calls (m : String) (o : SendOutcome) :
    callsOf (sendToServerSteps m o) = [Call.send m] := by
  cases o <;> rfl

theorem startListeningSteps_calls (startOk : Bool) :
    callsOf (startListeningSteps startOk) = [Call.voiceStart "en-US"] := by
  cases startOk <;> rfl

/-! ### C1 -/

/-- C1: for every state in which `isLoading` is true, an activation
(`handlePress`) is a no-op — all four state fields are unchanged and no Speech
Capability or Reply Capability call is made — and so is any sequence of such
activations. -/
theorem handlePress_noop_while_loading (s : AppState) (envs : List PressEnv)
    (env : PressEnv) (h : s.isLoading = true) :
    handlePress env s = (s, []) ∧ activationSeq s envs = (s, []) := by
  constructor
  · simp [handlePress, handlePressSteps, h, runSteps, callsOf]
  · induction envs with
    | nil => rfl
    | cons e rest ih =>
        have hact : activationSteps e s = [] := by
          simp [activationSteps, h]
        simp [activationSeq, activationRun, hact, runSteps, callsOf, ih]

/-- C1 witness: a concrete loading state, a concrete activation and a concrete
two-activation sequence, all leaving the state untouched with no calls. -/
theorem handlePress_noop_while_loading_witness :
    (AppState.mk true false "" "hi").isLoading = true ∧
    handlePress (PressEnv.mk true true SendOutcome.fetchReject)
      (AppState.mk true false "" "hi") = (AppState.mk true false "" "hi", []) ∧
    activationSeq (AppState.mk true false "" "hi")
      [PressEnv.mk true true SendOutcome.fetchReject,
       PressEnv.mk false false SendOutcome.throwSync] =
      (AppState.mk true false "" "hi", []) := by
  refine ⟨rfl, ?_, ?_⟩
  · exact (handlePress_noop_while_loading (AppState.mk true false "" "hi") []
      (PressEnv.mk true true SendOutcome.fetchReject) rfl).1
  · exact (handlePress_noop_while_loading (AppState.mk true false "" "hi")
      [PressEnv.mk true true SendOutcome.fetchReject,
       PressEnv.mk false false SendOutcome.throwSync]
      (PressEnv.mk true true SendOutcome.fetchReject) rfl).2

/-! ### C2 -/

/-- C2 counterexample: from the Listening state (`isListening = true`,
`isLoading = false`, empty transcript) with `stop()` rejecting, the activation
leaves `isListening` still `true`: the catch block of `stopListening` only
logs, so listening state is not forced false. -/
theorem stop_rejection_keeps_listening_cex :
    (activationRun (PressEnv.mk true false SendOutcome.fetchReject)
        (AppState.mk false true "" "")).1.isListening = true := by
  decide

/-- C2 (amended): when an activation stops listening, a `stop()` rejection is
caught and logged and the activation continues, but `stopListening` itself
never writes `isListening`; `isListening` becomes false through the
`onSpeechEnd` callback after a successfully settled `stop()`, and remains
unchanged (true) when `stop()` rejects, since no end event is delivered. -/
theorem stop_rejection_amended (env : PressEnv) (s : AppState)
    (hLoad : s.isLoading = false) (hListen : s.isListening = true) :
    (∀ b, Step.setListening b ∉ stopListeningSteps env.stopOk) ∧
    (env.stopOk = false →
      Step.log "Failed to stop listening:" ∈ activationSteps env s ∧
      (activationRun env s).1.isListening = true) ∧
    (env.stopOk = true → (activationRun env s).1.isListening = false) := by
  refine ⟨stopListeningSteps_no_setListening env.stopOk, ?_, ?_⟩
  · intro hstop
    have hsteps : activationSteps env s =
        stopListeningSteps false ++
          (if s.recognizedText ≠ "" then
            sendToServerSteps s.recognizedText env.sendOutcome
          else []) := by
      simp [activationSteps, hLoad, hListen, hstop]
    constructor
    · rw [hsteps]
      simp [stopListeningSteps]
    · show (runSteps s (activationSteps env s)).isListening = true
      rw [hsteps, runSteps_append]
      by_cases hr : s.recognizedText = ""
      · simp only [hr, ne_eq, not_true_eq_false, if_false, runSteps, List.foldl_nil]
        rw [show (List.foldl applyStep s (stopListeningSteps false)) =
          runSteps s (stopListeningSteps false) from rfl,
          runSteps_isListening_eq _ _ (stopListeningSteps_no_setListening false)]
        exact hListen
      · rw [if_pos hr,
          runSteps_isListening_eq _ _
            (sendToServerSteps_no_setListening s.recognizedText env.sendOutcome),
          runSteps_isListening_eq _ _ (stopListeningSteps_no_setListening false)]
        exact hListen
  · intro hstop
    have hsteps : activationSteps env s =
        (stopListeningSteps true ++ onSpeechEndSteps) ++
          (if s.recognizedText ≠ "" then
            sendToServerSteps s.recognizedText env.sendOutcome
          else []) := by
      simp [activationSteps, hLoad, hListen, hstop]
    show (runSteps s (activationSteps env s)).isListening = false
    rw [hsteps, runSteps_append]
    have hmid : (runSteps s (stopListeningSteps true ++ onSpeechEndSteps)).isListening
        = false := by
      simp [stopListeningSteps, onSpeechEndSteps, runSteps, applyStep]
    by_cases hr : s.recognizedText = ""
    · simp [hr, runSteps] at hmid ⊢
      exact hmid
    · rw [if_pos hr]
      rw [runSteps_isListening_eq _ _
        (sendToServerSteps_no_setListening s.recognizedText env.sendOutcome)]
      exact hmid

/-- C2 (amended) witness: the theorem instantiated at concrete listening
states, once with a rejecting `stop()` (listening survives) and once with a
successful `stop()` (listening ends). -/
theorem stop_rejection_amended_witness :
    (activationRun (PressEnv.mk true false SendOutcome.fetchReject)
        (AppState.mk false true "" "hello")).1.isListening = true ∧
    (activationRun (PressEnv.mk true true SendOutcome.fetchReject)
        (AppState.mk false true "" "hello")).1.isListening = false := by
  constructor
  · exact ((stop_rejection_amended (PressEnv.mk true false SendOutcome.fetchReject)
      (AppState.mk false true "" "hello") rfl rfl).2.1 rfl).2
  · exact (stop_rejection_amended (PressEnv.mk true true SendOutcome.fetchReject)
      (AppState.mk false true "" "hello") rfl rfl).2.2 rfl

/-! ### C3 -/

/-- C3 counterexample: an activation in the Listening state with an empty
transcript does not always return to Idle — with `stop()` rejecting, no
`onSpeechEnd` event is delivered and nothing in the activation writes
`isListening`, so the final state still has `isListening = true` (the no-send
part does hold: the send-message list is empty). -/
theorem empty_stop_rejection_not_idle_cex :
    (activationRun (PressEnv.mk false false SendOutcome.throwSync)
      (AppState.mk false true "" "")).1.isListening = true ∧
    sendMessages (activationRun (PressEnv.mk false false SendOutcome.throwSync)
      (AppState.mk false true "" "")).2 = [] := by
  decide

/-- C3 (amended): for every activation in the Listening state, if
`recognizedText` is non-empty at stop time, exactly one Reply Capability call
is made, with exactly that text as the `message` field (the send-message list
is the singleton of that text); if `recognizedText` is empty, zero Reply
Capability calls are made, `aiReply` is left unchanged (hence still empty),
`isLoading` stays false, and the controller is back in Idle
(`isListening = false`) once the stop settles successfully and its
`onSpeechEnd` event arrives; if `stop()` rejects, no end event is delivered
and the controller stays listening. -/
theorem listening_activation_send (env : PressEnv) (s : AppState)
    (hLoad : s.isLoading = false) (hListen : s.isListening = true) :
    (s.recognizedText ≠ "" →
      sendMessages (activationRun env s).2 = [s.recognizedText]) ∧
    (s.recognizedText = "" →
      sendMessages (activationRun env s).2 = [] ∧
      (activationRun env s).1.aiReply = s.aiReply ∧
      (activationRun env s).1.isLoading = false ∧
      (env.stopOk = true → (activationRun env s).1.isListening = false)) ∧
    (env.stopOk = false → (activationRun env s).1.isListening = true) := by
  refine ⟨?_, ?_, ?_⟩
  · intro hr
    cases hstop : env.stopOk <;>
      simp [activationRun, activationSteps, hLoad, hListen, hr, hstop,
        callsOf_append, stopListeningSteps_calls, onSpeechEndSteps_calls,
        sendToServerSteps_calls, sendMessages_append, sendMessages]
  · intro hr
    cases hstop : env.stopOk <;>
      simp [activationRun, activationSteps, hLoad, hListen, hr, hstop,
        stopListeningSteps, onSpeechEndSteps, runSteps, callsOf,
        sendMessages, applyStep]
  · intro hstop
    have hsteps : activationSteps env s =
        stopListeningSteps false ++
          (if s.recognizedText ≠ "" then
            sendToServerSteps s.recognizedText env.sendOutcome
          else []) := by
      simp [activationSteps, hLoad, hListen, hstop]
    show (runSteps s (activationSteps env s)).isListening = true
    rw [hsteps, runSteps_append]
    by_cases hr : s.recognizedText = ""
    · simp only [hr, ne_eq, not_true_eq_false, if_false, runSteps,
        List.foldl_nil]
      rw [show (List.foldl applyStep s (stopListeningSteps false)) =
        runSteps s (stopListeningSteps false) from rfl,
        runSteps_isListening_eq _ _ (stopListeningSteps_no_setListening false)]
      exact hListen
    · rw [if_pos hr,
        runSteps_isListening_eq _ _
          (sendToServerSteps_no_setListening s.recognizedText env.sendOutcome),
        runSteps_isListening_eq _ _ (stopListeningSteps_no_setListening false)]
      exact hListen

/-- C3 (amended) witness: a non-empty transcript yields exactly the one send
`["I feel tired"]`; an empty transcript with a successful stop yields no send;
an empty transcript with a rejecting stop leaves the controller listening. -/
theorem listening_activation_send_witness :
    sendMessages (activationRun
      (PressEnv.mk true true (SendOutcome.ok 200 (some (JsonValue.jstr "ok"))))
      (AppState.mk false true "" "I feel tired")).2 = ["I feel tired"] ∧
    sendMessages (activationRun
      (PressEnv.mk true true SendOutcome.fetchReject)
      (AppState.mk false true "" "")).2 = [] ∧
    (activationRun (PressEnv.mk true false SendOutcome.throwSync)
      (AppState.mk false true "" "")).1.isListening = true := by
  refine ⟨?_, ?_, ?_⟩
  · exact (listening_activation_send
      (PressEnv.mk true true (SendOutcome.ok 200 (some (JsonValue.jstr "ok"))))
      (AppState.mk false true "" "I feel tired") rfl rfl).1 (by decide)
  · exact ((listening_activation_send
      (PressEnv.mk true true SendOutcome.fetchReject)
      (AppState.mk false true "" "") rfl rfl).2.1 rfl).1
  · exact (listening_activation_send
      (PressEnv.mk true false SendOutcome.throwSync)
      (AppState.mk false true "" "") rfl rfl).2.2 rfl

/-! ### C4 -/

/-- C4: along the state trace of `sendToServer` started with `isLoading`
false, `isLoading` is true exactly from the `setIsLoading(true)` immediately
preceding the Reply Capability invocation until the `finally` block resets it
— in particular it is true when the fetch call is made (trace index 3) and
throughout its settlement, and false at entry and at exit — and this holds
whether the request resolves, rejects, fails to parse, or throws
synchronously; the final state always has `isLoading = false`.  No other
operation of the controller (start/stop/any speech callback) ever writes
`isLoading`, so it is false at all other times. -/
theorem sendToServer_loading_interval (s : AppState) (m : String)
    (o : SendOutcome) (hLoad : s.isLoading = false) :
    (∀ i, ∀ h : i < (stateTrace s (sendToServerSteps m o)).length,
      ((stateTrace s (sendToServerSteps m o)).get ⟨i, h⟩).isLoading = true ↔
        (2 ≤ i ∧ i + 1 < (stateTrace s (sendToServerSteps m o)).length)) ∧
    (runSteps s (sendToServerSteps m o)).isLoading = false ∧
    (∀ startOk, (startListeningSteps startOk).any setsLoading = false) ∧
    (∀ stopOk, (stopListeningSteps stopOk).any setsLoading = false) ∧
    onSpeechEndSteps.any setsLoading = false ∧
    (∀ e : SpeechResultsEvent, (onSpeechResultsSteps e).any setsLoading = false) ∧
    (∀ e : SpeechErrorEvent, (onSpeechErrorSteps e).any setsLoading = false) := by
  refine ⟨?_, ?_, ?_, ?_, ?_, ?_, ?_⟩
  · intro i h
    cases o <;>
      (simp only [sendToServerSteps, stateTrace, applyStep, List.length,
        List.cons_append, List.nil_append] at h ⊢) <;>
      interval_cases i <;>
      simp [List.get, hLoad]
  · cases o <;> simp [sendToServerSteps, runSteps, applyStep]
  · intro startOk
    cases startOk <;> simp [startListeningSteps, setsLoading]
  · intro stopOk
    cases stopOk <;> simp [stopListeningSteps, setsLoading]
  · simp [onSpeechEndSteps, setsLoading]
  · intro e
    rcases e with ⟨val⟩
    rcases val with _ | ⟨_ | ⟨v, rest⟩⟩ <;>
      simp [onSpeechResultsSteps, setsLoading]
  · intro e
    simp [onSpeechErrorSteps, setsLoading]

/-- C4 witness: from a concrete non-loading state, a synchronously-throwing
send still ends with `isLoading = false`, and the trace state at index 3 (the
state in which the fetch call is made) has `isLoading = true`. -/
theorem sendToServer_loading_interval_witness :
    (runSteps (AppState.mk false false "" "hi")
      (sendToServerSteps "hi" SendOutcome.throwSync)).isLoading = false ∧
    ((stateTrace (AppState.mk false false "" "hi")
        (sendToServerSteps "hi" SendOutcome.throwSync)).get
      ⟨3, by decide⟩).isLoading = true := by
  constructor
  · exact (sendToServer_loading_interval (AppState.mk false false "" "hi")
      "hi" SendOutcome.throwSync rfl).2.1
  · exact ((sendToServer_loading_interval (AppState.mk false false "" "hi")
      "hi" SendOutcome.throwSync rfl).1 3 (by decide)).mpr (by decide)

/-! ### C5 -/

/-- C5: when the Reply Capability settles, on success `aiReply` is set to the
returned reply text (a present, truthy `reply` field), or to the fixed
fallback string when the payload lacks a `reply` field; on any transport or
parse failure (`fetch` rejecting, `response.json()` rejecting, or a
synchronous throw) `aiReply` is set to the fixed connectivity-error message.
The failure never propagates past the controller: every outcome is handled by
a total function that ends with the `finally` reset. -/
theorem sendToServer_reply_outcomes (s : AppState) (m : String) :
    (∀ status t, t ≠ "" →
      (sendToServer m (SendOutcome.ok status (some (JsonValue.jstr t))) s).1.aiReply
        = t) ∧
    (∀ status,
      (sendToServer m (SendOutcome.ok status none) s).1.aiReply = fallbackReply) ∧
    (sendToServer m SendOutcome.fetchReject s).1.aiReply = connectError ∧
    (∀ status,
      (sendToServer m (SendOutcome.jsonReject status) s).1.aiReply = connectError) ∧
    (sendToServer m SendOutcome.throwSync s).1.aiReply = connectError := by
  refine ⟨?_, ?_, ?_, ?_, ?_⟩
  · intro status t ht
    simp [sendToServer, sendToServerSteps, runSteps, applyStep, replyOf,
      truthy, jsToString, bne_iff_ne, ht]
  · intro status
    simp [sendToServer, sendToServerSteps, runSteps, applyStep, replyOf]
  · simp [sendToServer, sendToServerSteps, runSteps, applyStep]
  · intro status
    simp [sendToServer, sendToServerSteps, runSteps, applyStep]
  · simp [sendToServer, sendToServerSteps, runSteps, applyStep]

/-- C5 witness: concrete settlements — a reply text, a missing `reply` field,
and a network rejection. -/
theorem sendToServer_reply_outcomes_witness :
    (sendToServer "hi" (SendOutcome.ok 200 (some (JsonValue.jstr "Lets talk")))
      (AppState.mk false false "" "hi")).1.aiReply = "Lets talk" ∧
    (sendToServer "hi" (SendOutcome.ok 200 none)
      (AppState.mk false false "" "hi")).1.aiReply = fallbackReply ∧
    (sendToServer "hi" SendOutcome.fetchReject
      (AppState.mk false false "" "hi")).1.aiReply = connectError := by
  refine ⟨?_, ?_, ?_⟩
  · exact (sendToServer_reply_outcomes (AppState.mk false false "" "hi")
      "hi").1 200 "Lets talk" (by decide)
  · exact (sendToServer_reply_outcomes (AppState.mk false false "" "hi")
      "hi").2.1 200
  · exact (sendToServer_reply_outcomes (AppState.mk false false "" "hi")
      "hi").2.2.1

/-! ### C6 -/

/-- C6: for every activation in the Idle state, the first three steps clear
`recognizedText` and `aiReply` and set `isListening` to true, and the fourth
is the `Voice.start("en-US")` call — so both fields are cleared and listening
is on strictly before `start` is invoked; if `start` fails (synchronously or
asynchronously), the catch reverts to Idle: the final state has
`isListening = false` with `recognizedText` still empty (no transcript
surfaced); if `start` succeeds, the final state is listening with both fields
cleared. -/
theorem idle_activation_start (env : PressEnv) (s : AppState)
    (hLoad : s.isLoading = false) (hListen : s.isListening = false) :
    (activationSteps env s).take 4 =
      [Step.setRecognized "", Step.setReply "", Step.setListening true,
       Step.call (Call.voiceStart "en-US")] ∧
    runSteps s ((activationSteps env s).take 3) =
      { s with recognizedText := "", aiReply := "", isListening := true } ∧
    (env.startOk = false →
      (activationRun env s).1 =
        { s with recognizedText := "", aiReply := "", isListening := false }) ∧
    (env.startOk = true →
      (activationRun env s).1 =
        { s with recognizedText := "", aiReply := "", isListening := true }) := by
  have hsteps : activationSteps env s = startListeningSteps env.startOk := by
    simp [activationSteps, hLoad, hListen]
  refine ⟨?_, ?_, ?_, ?_⟩
  · rw [hsteps]
    cases env.startOk <;> rfl
  · rw [hsteps]
    cases env.startOk <;> simp [startListeningSteps, runSteps, applyStep]
  · intro hstart
    show runSteps s (activationSteps env s) = _
    rw [hsteps, hstart]
    simp [startListeningSteps, runSteps, applyStep]
  · intro hstart
    show runSteps s (activationSteps env s) = _
    rw [hsteps, hstart]
    simp [startListeningSteps, runSteps, applyStep]

/-- C6 witness: from a concrete Idle state with stale transcript and reply, a
failing `start` ends reverted to Idle with both fields cleared; a successful
`start` ends listening with both fields cleared. -/
theorem idle_activation_start_witness :
    (activationRun (PressEnv.mk false true SendOutcome.fetchReject)
      (AppState.mk false false "old reply" "old text")).1 =
      AppState.mk false false "" "" ∧
    (activationRun (PressEnv.mk true true SendOutcome.fetchReject)
      (AppState.mk false false "old reply" "old text")).1 =
      AppState.mk false true "" "" := by
  constructor
  · exact (idle_activation_start (PressEnv.mk false true SendOutcome.fetchReject)
      (AppState.mk false false "old reply" "old text") rfl rfl).2.2.1 rfl
  · exact (idle_activation_start (PressEnv.mk true true SendOutcome.fetchReject)
      (AppState.mk false false "old reply" "old text") rfl rfl).2.2.2 rfl

/-! ### C7 -/

theorem sendToServerSteps_any_setsRecognized (m : String) (o : SendOutcome) :
    (sendToServerSteps m o).any setsRecognized = false := by
  cases o <;> simp [sendToServerSteps, setsRecognized]

theorem sendToServerSteps_any_setsReplyEmpty (m : String) (o : SendOutcome) :
    (sendToServerSteps m o).any setsReplyEmpty = true := by
  cases o <;> simp [sendToServerSteps, setsReplyEmpty]

theorem stopListeningSteps_any_setsRecognized (stopOk : Bool) :
    (stopListeningSteps stopOk).any setsRecognized = false := by
  cases stopOk <;> simp [stopListeningSteps, setsRecognized]

/-- C7 counterexample: an activation from the Listening state with a non-empty
transcript performs `sendToServer`, whose steps reset `aiReply` to the empty
string (`setAiReply("")` before the fetch) while containing no write to
`recognizedText` at all — so `aiReply` is reset without `recognizedText`,
refuting that the two fields are only ever reset together. -/
theorem aiReply_reset_alone_cex :
    (activationSteps (PressEnv.mk true true SendOutcome.fetchReject)
      (AppState.mk false true "" "hi")).any setsReplyEmpty = true ∧
    (activationSteps (PressEnv.mk true true SendOutcome.fetchReject)
      (AppState.mk false true "" "hi")).any setsRecognized = false := by
  decide

/-- C7 (amended): `recognizedText` and `aiReply` are cleared together when a
new listening session begins — an activation writes `recognizedText` exactly
when it starts from Idle (`isLoading` and `isListening` both false), and then
its first two steps are the paired clears; in addition, `sendToServer` clears
`aiReply` alone at the start of each send, so an activation that sends resets
`aiReply` to empty without touching `recognizedText`. -/
theorem resets_amended (env : PressEnv) (s : AppState) :
    ((activationSteps env s).any setsRecognized = true ↔
      (s.isLoading = false ∧ s.isListening = false)) ∧
    (s.isLoading = false → s.isListening = false →
      (activationSteps env s).take 2 =
        [Step.setRecognized "", Step.setReply ""]) ∧
    (s.isLoading = false → s.isListening = true → s.recognizedText ≠ "" →
      (activationSteps env s).any setsReplyEmpty = true ∧
      (activationSteps env s).any setsRecognized = false) := by
  refine ⟨?_, ?_, ?_⟩
  · cases hl : s.isLoading
    · cases hli : s.isListening
      · cases hstart : env.startOk <;>
          simp [activationSteps, hl, hli, hstart, startListeningSteps,
            setsRecognized]
      · by_cases hr : s.recognizedText = "" <;> cases hstop : env.stopOk <;>
          simp [activationSteps, hl, hli, hr, hstop, stopListeningSteps,
            onSpeechEndSteps, setsRecognized, List.any_append,
            sendToServerSteps_any_setsRecognized]
    · simp [activationSteps, hl]
  · intro hl hli
    have hsteps : activationSteps env s = startListeningSteps env.startOk := by
      simp [activationSteps, hl, hli]
    rw [hsteps]
    cases env.startOk <;> rfl
  · intro hl hli hr
    have hsteps : activationSteps env s =
        stopListeningSteps env.stopOk ++
          ((if env.stopOk then onSpeechEndSteps else []) ++
            sendToServerSteps s.recognizedText env.sendOutcome) := by
      simp [activationSteps, hl, hli, hr, List.append_assoc]
    rw [hsteps]
    cases hstop : env.stopOk <;>
      simp [List.any_append, stopListeningSteps, onSpeechEndSteps,
        setsReplyEmpty, setsRecognized,
        sendToServerSteps_any_setsReplyEmpty,
        sendToServerSteps_any_setsRecognized]

/-- C7 (amended) witness: a concrete Idle activation whose first two steps are
the paired clears, and a concrete sending activation that clears `aiReply`
alone. -/
theorem resets_amended_witness :
    (activationSteps (PressEnv.mk true true SendOutcome.fetchReject)
      (AppState.mk false false "r" "t")).take 2 =
      [Step.setRecognized "", Step.setReply ""] ∧
    (activationSteps (PressEnv.mk true false SendOutcome.throwSync)
      (AppState.mk false true "" "hi")).any setsReplyEmpty = true := by
  constructor
  · exact (resets_amended (PressEnv.mk true true SendOutcome.fetchReject)
      (AppState.mk false false "r" "t")).2.1 rfl rfl
  · exact ((resets_amended (PressEnv.mk true false SendOutcome.throwSync)
      (AppState.mk false true "" "hi")).2.2 rfl rfl (by decide)).1

/-! ### C8 -/

/-- C8: for every Speech Capability callback event — `onSpeechResults`
replaces `recognizedText` with the first candidate of the result list only
(later candidates are discarded; an absent or empty list changes nothing) and
alters no other field; `onSpeechEnd` sets `isListening` to false and alters
nothing else; `onSpeechError` logs the error and sets `isListening` to false,
altering no other field. -/
theorem speech_callbacks (e : SpeechResultsEvent) (err : SpeechErrorEvent)
    (s : AppState) :
    ((onSpeechResults e s).isLoading = s.isLoading ∧
     (onSpeechResults e s).isListening = s.isListening ∧
     (onSpeechResults e s).aiReply = s.aiReply) ∧
    (∀ v rest, e.value = some (v :: rest) →
      (onSpeechResults e s).recognizedText = v) ∧
    ((e.value = none ∨ e.value = some []) → onSpeechResults e s = s) ∧
    onSpeechEnd s = { s with isListening := false } ∧
    ((onSpeechError err s).isListening = false ∧
     (onSpeechError err s).isLoading = s.isLoading ∧
     (onSpeechError err s).recognizedText = s.recognizedText ∧
     (onSpeechError err s).aiReply = s.aiReply ∧
     Step.log ("Speech Error: " ++ err.error) ∈ onSpeechErrorSteps err) := by
  refine ⟨?_, ?_, ?_, ?_, ?_⟩
  · rcases e with ⟨val⟩
    rcases val with _ | ⟨_ | ⟨v, rest⟩⟩ <;>
      simp [onSpeechResults, onSpeechResultsSteps, runSteps, applyStep]
  · intro v rest hv
    rcases e with ⟨val⟩
    cases hv
    simp [onSpeechResults, onSpeechResultsSteps, runSteps, applyStep]
  · intro hv
    rcases e with ⟨val⟩
    rcases hv with hv | hv <;> cases hv <;>
      simp [onSpeechResults, onSpeechResultsSteps, runSteps]
  · simp [onSpeechEnd, onSpeechEndSteps, runSteps, applyStep]
  · refine ⟨?_, ?_, ?_, ?_, ?_⟩ <;>
      simp [onSpeechError, onSpeechErrorSteps, runSteps, applyStep]

/-- C8 witness: a concrete two-candidate result event keeps only the first
candidate; concrete end and error events force `isListening` false and leave
the other fields alone. -/
theorem speech_callbacks_witness :
    (onSpeechResults (SpeechResultsEvent.mk (some ["first", "second"]))
      (AppState.mk false true "r" "old")).recognizedText = "first" ∧
    onSpeechEnd (AppState.mk false true "r" "t") = AppState.mk false false "r" "t" ∧
    (onSpeechError (SpeechErrorEvent.mk "e7")
      (AppState.mk false true "r" "t")).isListening = false := by
  refine ⟨?_, ?_, ?_⟩
  · exact (speech_callbacks (SpeechResultsEvent.mk (some ["first", "second"]))
      (SpeechErrorEvent.mk "e7") (AppState.mk false true "r" "old")).2.1
      "first" ["second"] rfl
  · exact (speech_callbacks (SpeechResultsEvent.mk (some ["first", "second"]))
      (SpeechErrorEvent.mk "e7") (AppState.mk false true "r" "t")).2.2.2.1
  · exact (speech_callbacks (SpeechResultsEvent.mk (some ["first", "second"]))
      (SpeechErrorEvent.mk "e7") (AppState.mk false true "r" "t")).2.2.2.2.1

/-! ### C9 -/

/-- C9: when the Reply Capability resolves with a payload whose `reply` field
is present but falsy (empty string, `null`, `false`, or `0`), `aiReply` is set
to the fixed fallback string rather than to that falsy value (the source uses
`data.reply || fallback`); the reply value itself is shown exactly when it is
truthy. -/
theorem falsy_reply_fallback (s : AppState) (m : String) (status : Nat) :
    (∀ v, truthy v = false →
      (sendToServer m (SendOutcome.ok status (some v)) s).1.aiReply
        = fallbackReply) ∧
    (∀ v, truthy v = true →
      (sendToServer m (SendOutcome.ok status (some v)) s).1.aiReply
        = jsToString v) ∧
    truthy (JsonValue.jstr "") = false ∧
    truthy JsonValue.jnull = false ∧
    truthy (JsonValue.jbool false) = false ∧
    truthy (JsonValue.jnum 0) = false := by
  refine ⟨?_, ?_, by decide, by decide, by decide, by decide⟩
  · intro v hv
    simp [sendToServer, sendToServerSteps, runSteps, applyStep, replyOf, hv]
  · intro v hv
    simp [sendToServer, sendToServerSteps, runSteps, applyStep, replyOf, hv]

/-- C9 witness: a present-but-empty `reply` field yields the fallback string,
and a truthy reply is shown as is. -/
theorem falsy_reply_fallback_witness :
    (sendToServer "hi" (SendOutcome.ok 200 (some (JsonValue.jstr "")))
      (AppState.mk false false "" "hi")).1.aiReply = fallbackReply ∧
    (sendToServer "hi" (SendOutcome.ok 200 (some (JsonValue.jstr "yes")))
      (AppState.mk false false "" "hi")).1.aiReply = "yes" := by
  constructor
  · exact (falsy_reply_fallback (AppState.mk false false "" "hi") "hi" 200).1
      (JsonValue.jstr "") (by decide)
  · exact (falsy_reply_fallback (AppState.mk false false "" "hi") "hi" 200).2.1
      (JsonValue.jstr "yes") (by decide)

/-! ### C10 -/

/-- C10: the HTTP status of a resolved response is never inspected — a 404 or
500 whose body still parses as JSON takes the success path: the whole
`sendToServer` run is identical for any two statuses, and `aiReply` is set
from the body's `reply` field (or the fallback string); the fixed
connectivity-error message arises exactly in the outcomes where the fetch
rejects, the body fails to parse as JSON, or the call throws. -/
theorem http_status_ignored (s : AppState) (m : String) :
    (∀ status status2 p,
      sendToServer m (SendOutcome.ok status p) s
        = sendToServer m (SendOutcome.ok status2 p) s) ∧
    (∀ status p,
      (sendToServer m (SendOutcome.ok status p) s).1.aiReply = replyOf p) ∧
    ((sendToServer m SendOutcome.fetchReject s).1.aiReply = connectError ∧
     (∀ status,
       (sendToServer m (SendOutcome.jsonReject status) s).1.aiReply
         = connectError) ∧
     (sendToServer m SendOutcome.throwSync s).1.aiReply = connectError) := by
  refine ⟨?_, ?_, ?_, ?_, ?_⟩
  · intro status status2 p
    rfl
  · intro status p
    simp [sendToServer, sendToServerSteps, runSteps, applyStep]
  · simp [sendToServer, sendToServerSteps, runSteps, applyStep]
  · intro status
    simp [sendToServer, sendToServerSteps, runSteps, applyStep]
  · simp [sendToServer, sendToServerSteps, runSteps, applyStep]

/-- C10 witness: a 404 response with body `{reply: "hello"}` sets `aiReply` to
`"hello"` — the same as a 200 response — and not to the connectivity-error
message. -/
theorem http_status_ignored_witness :
    (sendToServer "hi" (SendOutcome.ok 404 (some (JsonValue.jstr "hello")))
      (AppState.mk false false "" "hi")).1.aiReply = "hello" ∧
    sendToServer "hi" (SendOutcome.ok 404 (some (JsonValue.jstr "hello")))
      (AppState.mk false false "" "hi")
      = sendToServer "hi" (SendOutcome.ok 200 (some (JsonValue.jstr "hello")))
        (AppState.mk false false "" "hi") ∧
    (sendToServer "hi" (SendOutcome.ok 404 (some (JsonValue.jstr "hello")))
      (AppState.mk false false "" "hi")).1.aiReply ≠ connectError := by
  refine ⟨?_, ?_, ?_⟩
  · have h := (http_status_ignored (AppState.mk false false "" "hi") "hi").2.1
      404 (some (JsonValue.jstr "hello"))
    simpa [replyOf, truthy, jsToString] using h
  · exact (http_status_ignored (AppState.mk false false "" "hi") "hi").1
      404 200 (some (JsonValue.jstr "hello"))
  · have h := (http_status_ignored (AppState.mk false false "" "hi") "hi").2.1
      404 (some (JsonValue.jstr "hello"))
    rw [h]
    decide
